import Mathlib

/-!
Verification development for the CMR/Specification/Invoice generator app
(`src/app.py`). The pandas workbook is shallowly embedded: a DataFrame is an
association list from column name to a column of cells, a cell is `Option
String` (`none` models a missing value, pandas NaN), and a Python dict is an
association list built by insert-or-update in iteration order. The Streamlit
UI layer is modelled only where a claim depends on it (one script run per
form submission, module-level locals re-created on every run).
-/

/-- A spreadsheet cell as loaded by pandas: `none` models NaN (missing). -/
abbrev Cell := Option String

/-- One column of a sheet, top to bottom. -/
abbrev Column := List Cell

/-- A loaded sheet (pandas DataFrame), column-major: column name to cells. -/
abbrev DF := List (String × Column)

/-- A loaded workbook: sheet name to sheet, as built by `load_workbook`. -/
abbrev Workbook := List (String × DF)

/-- A Python dict with `Cell` keys and values, in key-insertion order. -/
abbrev Dict := List (Cell × Cell)

/-- A document record: a Python dict from field name to value, in
insertion order of the record literal. -/
abbrev Rcd := List (String × Cell)

/-- First-match association lookup: Python `dict.get` / membership access
on an association list with distinct keys. -/
def alookup {κ β : Type} [DecidableEq κ] : List (κ × β) → κ → Option β
  | [], _ => none
  | (a, v) :: t, k => if a = k then some v else alookup t k

/-- `data.get(sheetName)` in `prepare_lists` and `main`. -/
def wbGet (data : Workbook) (name : String) : Option DF := alookup data name

/-- Column access `df[c]`, and the guard `c in df.columns` via `isSome`. -/
def dfGetCol (df : DF) (c : String) : Option Column := alookup df c

/-- Single insertion into a Python dict: update the value in place if the
key is present, else append the new binding at the end. -/
def dictUpsert (d : Dict) (k v : Cell) : Dict :=
  match d with
  | [] => [(k, v)]
  | (a, w) :: t => if a = k then (a, v) :: t else (a, w) :: dictUpsert t k v

/-- `Series.to_dict()` after `set_index`: insert the (index, value) pairs
into a fresh dict in row order, so a later duplicate key overwrites the
value stored for an earlier one. -/
def toDict (pairs : List (Cell × Cell)) : Dict :=
  pairs.foldl (fun d p => dictUpsert d p.1 p.2) []

/-- The value paired with the last occurrence of key `k` in `pairs`
(specification-side description of duplicate-key handling). -/
def lastAssoc (pairs : List (Cell × Cell)) (k : Cell) : Option Cell :=
  match pairs with
  | [] => none
  | (a, v) :: t =>
    match lastAssoc t k with
    | some w => some w
    | none => if a = k then some v else none

/-- pandas `Series.unique()`: the distinct values in order of first
appearance. -/
def uniqueFirst {α : Type} [DecidableEq α] : List α → List α
  | [] => []
  | x :: xs => x :: (uniqueFirst xs).filter (fun y => decide (y ≠ x))

/-- Position of the first occurrence of `a` in a list (length if absent). -/
def firstIdx {α : Type} [DecidableEq α] : List α → α → Nat
  | [], _ => 0
  | x :: t, a => if x = a then 0 else firstIdx t a + 1

/-- The result of `prepare_lists`: the six entries of the returned dict. -/
structure RefLists where
  senders : List String
  sender_address : Dict
  receivers : List String
  receiver_address : Dict
  receiver_ogrn : Dict
  incoterms : List String
deriving DecidableEq

/-- The sender block of `prepare_lists` (src/app.py lines 44-51): guarded
on the sheet and on the name column, but the address column access
`senders_df.set_index(..)[Адрес компании]` is unguarded and raises
KeyError when that column is absent. -/
def sendersPart (data : Workbook) : Except String (List String × Dict) :=
  match wbGet data "Отправитель" with
  | none => .ok ([], [])
  | some df =>
    match dfGetCol df "Наименование компании" with
    | none => .ok ([], [])
    | some nameCol =>
      match dfGetCol df "Адрес компании" with
      | none => .error "KeyError: Адрес компании"
      | some addrCol =>
        .ok (uniqueFirst (nameCol.filterMap id), toDict (nameCol.zip addrCol))

/-- The receiver/carrier block of `prepare_lists` (lines 53-61): the name
column is the guard; the address and registration-id columns are each
individually guarded and degrade to an empty dict. -/
def receiversPart (data : Workbook) : List String × Dict × Dict :=
  match wbGet data "Получатель и перевозчик" with
  | none => ([], [], [])
  | some df =>
    match dfGetCol df "Наименование" with
    | none => ([], [], [])
    | some nameCol =>
      ( uniqueFirst (nameCol.filterMap id)
      , (match dfGetCol df "Адрес" with
         | some addrCol => toDict (nameCol.zip addrCol)
         | none => [])
      , (match dfGetCol df "ОГРН.1" with
         | some ogrnCol => toDict (nameCol.zip ogrnCol)
         | none => []) )

/-- The delivery-terms block of `prepare_lists` (lines 63-67). -/
def incotermsPart (data : Workbook) : List String :=
  match wbGet data "доп данные" with
  | none => []
  | some df =>
    match dfGetCol df "Условия поставки" with
    | none => []
    | some col => uniqueFirst (col.filterMap id)

/-- `prepare_lists` (src/app.py lines 33-68). A Python exception raised in
the sender block aborts the whole call, modelled by `Except`. -/
def prepare_lists (data : Workbook) : Except String RefLists :=
  match sendersPart data with
  | .error e => .error e
  | .ok sp =>
    .ok { senders := sp.1
          sender_address := sp.2
          receivers := (receiversPart data).1
          receiver_address := (receiversPart data).2.1
          receiver_ogrn := (receiversPart data).2.2
          incoterms := incotermsPart data }

/-- A sheet produced by the exporter, row-major with a column header. -/
structure XDF where
  cols : List String
  rows : List (List Cell)
deriving DecidableEq

/-- pandas key collection for `pd.DataFrame(list_of_dicts)`: the union of
the record keys in order of first appearance. -/
def unionKeys (recs : List Rcd) : List String :=
  recs.foldl (fun acc r => acc ++ (r.map Prod.fst).filter (fun c => decide (c ∉ acc))) []

/-- `pd.DataFrame(recs)` for a list of dicts: columns are the union of the
keys, every record contributes one row, a key missing from a record yields
NaN in that row. -/
def dfOfRecords (recs : List Rcd) : XDF :=
  ⟨unionKeys recs,
   recs.map (fun r => (unionKeys recs).map (fun c => (alookup r c).getD none))⟩

/-- `df.to_excel(writer, index=False)`: the written sheet grid is the
header row of column names followed by the data rows. -/
def toTable (df : XDF) : List (List Cell) := df.cols.map some :: df.rows

/-- `to_excel_bytes` (src/app.py lines 16-30): serialize each named
DataFrame as one sheet. The xlsx byte encoding itself is performed by
openpyxl and is treated as a faithful carrier of the sheet grids. -/
def to_excel_bytes (dfs : List (String × XDF)) : List (String × List (List Cell)) :=
  dfs.map (fun p => (p.1, toTable p.2))

/-- Modelled from the spec: the Workbook Loader per-sheet parse
(`pd.ExcelFile.parse`, an external collaborator, spec section 4.1) reads a
sheet grid back as a header row of column names followed by data rows. -/
def parseSheet (t : List (List Cell)) : XDF :=
  match t with
  | [] => ⟨[], []⟩
  | h :: rows => ⟨h.map (fun c => c.getD ""), rows⟩

/-- View a parsed sheet as a list of records (row dicts in column order). -/
def recordsOfDF (df : XDF) : List Rcd := df.rows.map (fun row => df.cols.zip row)

/-- Address/attribute resolution used by the forms:
the dict method get with an empty-string default (src/app.py lines 98, 101, 104, 138, 141,
172, 175). Total: a missing key resolves to the empty string. -/
def resolve (d : Dict) (n : String) : Cell := (alookup d (some n)).getD (some "")

/-- The user inputs of the CMR form (src/app.py lines 97-109). -/
structure CMRForm where
  sender : String
  receiver : String
  carrier : String
  incoterm : String
  contract_no : String
  invoice_no : String
  cmr_no : String
deriving DecidableEq

/-- The record appended by the CMR form submit handler
(src/app.py lines 112-123). -/
def buildCMRRow (L : RefLists) (f : CMRForm) : Rcd :=
  [ ("Отправитель", some f.sender)
  , ("Адрес отправителя", resolve L.sender_address f.sender)
  , ("Получатель", some f.receiver)
  , ("Адрес получателя", resolve L.receiver_address f.receiver)
  , ("Перевозчик", some f.carrier)
  , ("Адрес перевозчика", resolve L.receiver_address f.carrier)
  , ("Условия поставки", some f.incoterm)
  , ("Номер контракта", some f.contract_no)
  , ("Номер инвойса", some f.invoice_no)
  , ("Номер CMR", some f.cmr_no) ]

/-- The user inputs of the Specification form (src/app.py lines 137-146). -/
structure SpecForm where
  seller : String
  consignee : String
  contract_no : String
  spec_no : String
  goods : String
  currency : String
deriving DecidableEq

/-- The record appended by the Specification submit handler
(src/app.py lines 148-157). -/
def buildSpecRow (L : RefLists) (f : SpecForm) : Rcd :=
  [ ("Продавец", some f.seller)
  , ("Адрес продавца", resolve L.sender_address f.seller)
  , ("Получатель", some f.consignee)
  , ("Адрес получателя", resolve L.receiver_address f.consignee)
  , ("Номер контракта", some f.contract_no)
  , ("Номер спецификации", some f.spec_no)
  , ("Описание товаров", some f.goods)
  , ("Валюта", some f.currency) ]

/-- The user inputs of the Invoice form (src/app.py lines 171-181); the
date is represented by its rendered string. -/
structure InvoiceForm where
  exporter : String
  buyer : String
  invoice_no : String
  invoice_date : String
  contract_no : String
  incoterm : String
  goods : String
deriving DecidableEq

/-- The record appended by the Invoice submit handler
(src/app.py lines 183-193). -/
def buildInvoiceRow (L : RefLists) (f : InvoiceForm) : Rcd :=
  [ ("Экспортер", some f.exporter)
  , ("Адрес экспортера", resolve L.sender_address f.exporter)
  , ("Покупатель", some f.buyer)
  , ("Адрес покупателя", resolve L.receiver_address f.buyer)
  , ("Номер инвойса", some f.invoice_no)
  , ("Дата инвойса", some f.invoice_date)
  , ("Номер контракта", some f.contract_no)
  , ("Условия поставки", some f.incoterm)
  , ("Описание товаров", some f.goods) ]

/-- One Streamlit script run of the CMR tab: `main` re-creates the local
list `cmr_rows = []` on every run (src/app.py line 87) and the submit
handler appends at most the single record of the current submission
(line 112). -/
def cmrRunRows (L : RefLists) (submitted : Option CMRForm) : List Rcd :=
  let cmr_rows : List Rcd := []
  match submitted with
  | none => cmr_rows
  | some f => cmr_rows ++ [buildCMRRow L f]

/-- A session with one script run per form submission (Streamlit reruns
the whole script on each interaction; `st.session_state` is not used, so
nothing carries `cmr_rows` from one run to the next). The state visible
after the session is that of the final run. -/
def cmrSessionRows (L : RefLists) (subs : List CMRForm) : List Rcd :=
  subs.foldl (fun _ s => cmrRunRows L (some s)) []

/-- A value of the dict returned by `prepare_lists`: a list of names or a
lookup dict. -/
inductive LVal where
  | strs (l : List String)
  | dct (d : Dict)
deriving DecidableEq

/-- The dict returned by `prepare_lists`, with its six keys in assignment
order (src/app.py lines 46-67). -/
def listsDict (L : RefLists) : List (String × LVal) :=
  [ ("senders", LVal.strs L.senders)
  , ("sender_address", LVal.dct L.sender_address)
  , ("receivers", LVal.strs L.receivers)
  , ("receiver_address", LVal.dct L.receiver_address)
  , ("receiver_ogrn", LVal.dct L.receiver_ogrn)
  , ("incoterms", LVal.strs L.incoterms) ]

/-- The three distinct-value list properties claimed for extraction,
relative to the source column `col`: no duplicates, exactly the non-missing
values, and ordered by first appearance in the source column. -/
def distinctOk (col : Column) (out : List String) : Prop :=
  out.Nodup ∧ (∀ x, x ∈ out ↔ some x ∈ col) ∧
    out.Pairwise (fun a b => firstIdx col (some a) < firstIdx col (some b))

/-! ### Association list and dict lemmas -/

lemma alookup_eq_none_of_not_mem_keys {κ β : Type} [DecidableEq κ]
    (d : List (κ × β)) (k : κ) (h : k ∉ d.map Prod.fst) : alookup d k = none := by
  induction d with
  | nil => rfl
  | cons p t ih =>
    obtain ⟨a, v⟩ := p
    simp only [List.map_cons, List.mem_cons, not_or] at h
    simp only [alookup, ih h.2]
    rw [if_neg (fun hh => h.1 hh.symm)]

lemma alookup_dictUpsert (d : Dict) (k v k' : Cell) :
    alookup (dictUpsert d k v) k' = if k = k' then some v else alookup d k' := by
  induction d with
  | nil => simp [dictUpsert, alookup]
  | cons p t ih =>
    obtain ⟨a, w⟩ := p
    by_cases hak : a = k
    · subst hak
      simp only [dictUpsert, if_pos rfl, alookup]
      by_cases hk : a = k' <;> simp [hk]
    · simp only [dictUpsert, if_neg hak, alookup]
      by_cases hk : a = k'
      · subst hk
        have : ¬ k = a := fun h => hak h.symm
        simp [this]
      · simp [hk, ih]

lemma alookup_foldl_dictUpsert (pairs : List (Cell × Cell)) :
    ∀ (d : Dict) (k : Cell),
      alookup (pairs.foldl (fun d p => dictUpsert d p.1 p.2) d) k =
        (lastAssoc pairs k).orElse (fun _ => alookup d k) := by
  induction pairs with
  | nil => intro d k; simp [lastAssoc, Option.orElse]
  | cons p t ih =>
    intro d k
    obtain ⟨a, v⟩ := p
    simp only [List.foldl_cons, lastAssoc]
    rw [ih]
    cases h : lastAssoc t k with
    | some w => simp [Option.orElse]
    | none =>
      simp only [Option.orElse, alookup_dictUpsert]
      by_cases hak : a = k <;> simp [hak]

/-- The dict built by `toDict` maps each key to the value of its last
occurrence in the input pairs. -/
lemma alookup_toDict (pairs : List (Cell × Cell)) (k : Cell) :
    alookup (toDict pairs) k = lastAssoc pairs k := by
  rw [toDict, alookup_foldl_dictUpsert]
  cases h : lastAssoc pairs k <;> simp [Option.orElse, alookup]

/-! ### uniqueFirst lemmas -/

lemma mem_uniqueFirst {α : Type} [DecidableEq α] (l : List α) (a : α) :
    a ∈ uniqueFirst l ↔ a ∈ l := by
  induction l with
  | nil => simp [uniqueFirst]
  | cons x xs ih =>
    simp only [uniqueFirst, List.mem_cons, List.mem_filter, decide_eq_true_eq, ih]
    by_cases hax : a = x
    · simp [hax]
    · simp [hax]

lemma uniqueFirst_nodup {α : Type} [DecidableEq α] (l : List α) :
    (uniqueFirst l).Nodup := by
  induction l with
  | nil => simp [uniqueFirst]
  | cons x xs ih =>
    simp only [uniqueFirst, List.nodup_cons]
    refine ⟨?_, ih.filter _⟩
    intro hx
    simp only [List.mem_filter, decide_eq_true_eq] at hx
    exact hx.2 rfl

lemma firstIdx_cons_self {α : Type} [DecidableEq α] (x : α) (t : List α) :
    firstIdx (x :: t) x = 0 := by
  simp [firstIdx]

lemma firstIdx_cons_ne {α : Type} [DecidableEq α] (x : α) (t : List α) (a : α)
    (h : x ≠ a) : firstIdx (x :: t) a = firstIdx t a + 1 := by
  simp [firstIdx, h]

lemma uniqueFirst_pairwise {α : Type} [DecidableEq α] (l : List α) :
    (uniqueFirst l).Pairwise (fun a b => firstIdx l a < firstIdx l b) := by
  induction l with
  | nil => simp [uniqueFirst]
  | cons x xs ih =>
    simp only [uniqueFirst, List.pairwise_cons]
    constructor
    · intro b hb
      rw [List.mem_filter] at hb
      have hbx : b ≠ x := by simpa using hb.2
      rw [firstIdx_cons_self, firstIdx_cons_ne x xs b (fun h => hbx h.symm)]
      exact Nat.succ_pos _
    · have hf : ((uniqueFirst xs).filter (fun y => decide (y ≠ x))).Pairwise
          (fun a b => firstIdx xs a < firstIdx xs b) := ih.filter _
      refine hf.imp_of_mem ?_
      intro a b ha hb hab
      rw [List.mem_filter] at ha hb
      have hax : a ≠ x := by simpa using ha.2
      have hbx : b ≠ x := by simpa using hb.2
      rw [firstIdx_cons_ne x xs a (fun h => hax h.symm),
        firstIdx_cons_ne x xs b (fun h => hbx h.symm)]
      exact Nat.succ_lt_succ hab

/-- Dropping missing cells preserves the relative order of first
occurrences: if `a` first appears before `b` among the non-missing values,
then `some a` first appears before `some b` in the source column. -/
lemma firstIdx_filterMap_lt (col : Column) (a b : String)
    (ha : a ∈ col.filterMap id) (hb : b ∈ col.filterMap id)
    (h : firstIdx (col.filterMap id) a < firstIdx (col.filterMap id) b) :
    firstIdx col (some a) < firstIdx col (some b) := by
  induction col with
  | nil => simp at ha
  | cons c t ih =>
    cases c with
    | none =>
      have e : (none :: t).filterMap id = t.filterMap id := by
        simp [List.filterMap_cons]
      rw [e] at ha hb h
      rw [firstIdx_cons_ne none t (some a) (by simp),
        firstIdx_cons_ne none t (some b) (by simp)]
      exact Nat.succ_lt_succ (ih ha hb h)
    | some v =>
      have e : (some v :: t).filterMap id = v :: t.filterMap id := by
        simp [List.filterMap_cons]
      rw [e] at ha hb h
      by_cases hav : a = v
      · subst hav
        have hba : b ≠ a := by
          intro hba
          subst hba
          exact Nat.lt_irrefl _ h
        rw [firstIdx_cons_self]
        rw [firstIdx_cons_ne (some a) t (some b)
          (fun hh => hba ((Option.some.inj hh).symm))]
        exact Nat.succ_pos _
      · by_cases hbv : b = v
        · subst hbv
          rw [firstIdx_cons_ne b (t.filterMap id) a (fun hh => hav hh.symm),
            firstIdx_cons_self] at h
          exact absurd h (by omega)
        · rw [firstIdx_cons_ne v (t.filterMap id) a (fun hh => hav hh.symm),
            firstIdx_cons_ne v (t.filterMap id) b (fun hh => hbv hh.symm)] at h
          have ha' : a ∈ t.filterMap id := by
            rcases List.mem_cons.mp ha with h1 | h1
            · exact absurd h1 hav
            · exact h1
          have hb' : b ∈ t.filterMap id := by
            rcases List.mem_cons.mp hb with h1 | h1
            · exact absurd h1 hbv
            · exact h1
          rw [firstIdx_cons_ne (some v) t (some a)
              (fun hh => hav ((Option.some.inj hh).symm)),
            firstIdx_cons_ne (some v) t (some b)
              (fun hh => hbv ((Option.some.inj hh).symm))]
          exact Nat.succ_lt_succ (ih ha' hb' (Nat.lt_of_succ_lt_succ h))

/-- The distinct-value list `col.dropna().unique().tolist()` satisfies all
three claimed properties relative to its source column. -/
lemma distinctOk_uniqueFirst_filterMap (col : Column) :
    distinctOk col (uniqueFirst (col.filterMap id)) := by
  refine ⟨uniqueFirst_nodup _, ?_, ?_⟩
  · intro x
    rw [mem_uniqueFirst]
    simp [List.mem_filterMap]
  · have hp := uniqueFirst_pairwise (col.filterMap id)
    refine hp.imp_of_mem ?_
    intro a b ha hb hab
    rw [mem_uniqueFirst] at ha hb
    exact firstIdx_filterMap_lt col a b ha hb hab

/-! ### prepare_lists elimination -/

lemma prepare_lists_ok_parts (data : Workbook) (L : RefLists)
    (h : prepare_lists data = .ok L) :
    sendersPart data = .ok (L.senders, L.sender_address) ∧
      receiversPart data = (L.receivers, L.receiver_address, L.receiver_ogrn) ∧
      incotermsPart data = L.incoterms := by
  unfold prepare_lists at h
  cases hs : sendersPart data with
  | error e =>
    rw [hs] at h
    exact absurd h (by simp)
  | ok sp =>
    rw [hs] at h
    obtain ⟨s, sa⟩ := sp
    simp only [Except.ok.injEq] at h
    cases h
    exact ⟨rfl, rfl, rfl⟩

/-! ### unionKeys and round-trip lemmas -/

lemma mem_unionKeys (recs : List Rcd) (c : String) :
    c ∈ unionKeys recs ↔ ∃ r ∈ recs, c ∈ r.map Prod.fst := by
  have key : ∀ (rs : List Rcd) (acc : List String),
      c ∈ rs.foldl (fun acc r =>
          acc ++ (r.map Prod.fst).filter (fun c => decide (c ∉ acc))) acc ↔
        c ∈ acc ∨ ∃ r ∈ rs, c ∈ r.map Prod.fst := by
    intro rs
    induction rs with
    | nil => intro acc; simp
    | cons r rest ih =>
      intro acc
      simp only [List.foldl_cons]
      rw [ih]
      simp only [List.mem_append, List.mem_filter, decide_eq_true_eq]
      constructor
      · rintro ((h | ⟨h1, _⟩) | ⟨r', hr', hc⟩)
        · exact Or.inl h
        · exact Or.inr ⟨r, List.mem_cons_self r rest, h1⟩
        · exact Or.inr ⟨r', List.mem_cons_of_mem r hr', hc⟩
      · rintro (h | ⟨r', hr', hc⟩)
        · exact Or.inl (Or.inl h)
        · rcases List.mem_cons.mp hr' with he | ht
          · subst he
            by_cases hacc : c ∈ acc
            · exact Or.inl (Or.inl hacc)
            · exact Or.inl (Or.inr ⟨hc, hacc⟩)
          · exact Or.inr ⟨r', ht, hc⟩
  rw [unionKeys, key]
  simp

lemma unionKeys_nodup (recs : List Rcd) (h : ∀ r ∈ recs, (r.map Prod.fst).Nodup) :
    (unionKeys recs).Nodup := by
  have key : ∀ (rs : List Rcd) (acc : List String),
      (∀ r ∈ rs, (r.map Prod.fst).Nodup) → acc.Nodup →
      (rs.foldl (fun acc r =>
          acc ++ (r.map Prod.fst).filter (fun c => decide (c ∉ acc))) acc).Nodup := by
    intro rs
    induction rs with
    | nil => intro acc _ ha; simpa using ha
    | cons r rest ih =>
      intro acc hn ha
      simp only [List.foldl_cons]
      refine ih _ (fun r' hr' => hn r' (List.mem_cons_of_mem _ hr')) ?_
      refine List.Nodup.append ha ((hn r (List.mem_cons_self _ _)).filter _) ?_
      intro c hc1 hc2
      rw [List.mem_filter] at hc2
      have hc3 : c ∉ acc := by simpa using hc2.2
      exact hc3 hc1
  rw [unionKeys]
  exact key recs [] h List.nodup_nil

lemma foldl_union_uniform (cols : List String) :
    ∀ (rs : List Rcd), (∀ r ∈ rs, r.map Prod.fst = cols) →
      rs.foldl (fun acc r =>
          acc ++ (r.map Prod.fst).filter (fun c => decide (c ∉ acc))) cols = cols := by
  intro rs
  induction rs with
  | nil => intro _; rfl
  | cons r rest ih =>
    intro h
    simp only [List.foldl_cons]
    have he : cols ++ (r.map Prod.fst).filter (fun c => decide (c ∉ cols)) = cols := by
      rw [h r (List.mem_cons_self _ _)]
      have hf : cols.filter (fun c => decide (c ∉ cols)) = [] :=
        List.filter_eq_nil_iff.mpr (fun a ha => by simp [ha])
      rw [hf, List.append_nil]
    rw [he]
    exact ih (fun r' hr' => h r' (List.mem_cons_of_mem _ hr'))

lemma unionKeys_uniform (r : Rcd) (rest : List Rcd) (cols : List String)
    (h : ∀ x ∈ r :: rest, x.map Prod.fst = cols) :
    unionKeys (r :: rest) = cols := by
  rw [unionKeys]
  simp only [List.foldl_cons]
  have h0 : ([] : List String) ++
      (r.map Prod.fst).filter (fun c => decide (c ∉ ([] : List String))) = cols := by
    rw [h r (List.mem_cons_self _ _)]
    rw [List.nil_append]
    exact List.filter_eq_self.mpr (fun a _ => by simp)
  rw [h0]
  exact foldl_union_uniform cols rest (fun x hx => h x (List.mem_cons_of_mem _ hx))

lemma zip_fst_snd {α β : Type} (l : List (α × β)) :
    (l.map Prod.fst).zip (l.map Prod.snd) = l := by
  induction l with
  | nil => rfl
  | cons p t ih =>
    cases p
    simp [ih]

lemma map_alookup_keys (r : Rcd) (h : (r.map Prod.fst).Nodup) :
    (r.map Prod.fst).map (fun c => (alookup r c).getD none) = r.map Prod.snd := by
  induction r with
  | nil => rfl
  | cons p t ih =>
    obtain ⟨k, v⟩ := p
    simp only [List.map_cons, List.nodup_cons] at h
    have hrest : (t.map Prod.fst).map (fun c => (alookup ((k, v) :: t) c).getD none) =
        (t.map Prod.fst).map (fun c => (alookup t c).getD none) := by
      refine List.map_congr_left ?_
      intro c hc
      have hkc : ¬ k = c := fun he => h.1 (he ▸ hc)
      simp [alookup, hkc]
    simp only [List.map_cons]
    rw [hrest, ih h.2]
    congr 1
    simp [alookup]

/-- A uniform record is reproduced exactly by looking its values up per
column and re-pairing them with the column names. -/
lemma record_roundtrip (r : Rcd) (cols : List String) (hnd : cols.Nodup)
    (hk : r.map Prod.fst = cols) :
    cols.zip (cols.map (fun c => (alookup r c).getD none)) = r := by
  subst hk
  rw [map_alookup_keys r hnd, zip_fst_snd]

/-! ### Claim C1 -/

/-- Scenario A workbook: a Sender sheet whose rows are
("Acme", "123 Rd") and ("Acme", "999 Rd"). -/
def wbScenarioA : Workbook :=
  [("Отправитель",
    [ ("Наименование компании", [some "Acme", some "Acme"])
    , ("Адрес компании", [some "123 Rd", some "999 Rd"]) ])]

/-- C1 counterexample: on the Scenario A workbook the extraction maps
"Acme" to "999 Rd", the address of the LAST duplicate row, not to the
claimed first-occurrence address "123 Rd" (the senders list is still
["Acme"]). `Series.to_dict` lets a later duplicate index overwrite the
stored value. -/
theorem senderAddress_first_wins_false :
    prepare_lists wbScenarioA =
      .ok ⟨["Acme"], [(some "Acme", some "999 Rd")], [], [], [], []⟩ ∧
    alookup [(some "Acme", some "999 Rd")] (some "Acme") ≠ some (some "123 Rd") := by
  constructor
  · rfl
  · decide

/-- C1 amended: for a Sender sheet having both the name and the address
column, the sender-address mapping sends a key to the address cell of the
last row in which that key occurs (none when it never occurs). -/
theorem senderAddress_last_occurrence (data : Workbook) (df : DF)
    (nameCol addrCol : Column) (L : RefLists) (n : Cell)
    (h1 : wbGet data "Отправитель" = some df)
    (h2 : dfGetCol df "Наименование компании" = some nameCol)
    (h3 : dfGetCol df "Адрес компании" = some addrCol)
    (h : prepare_lists data = .ok L) :
    alookup L.sender_address n = lastAssoc (nameCol.zip addrCol) n := by
  obtain ⟨hs, -, -⟩ := prepare_lists_ok_parts data L h
  simp only [sendersPart, h1, h2, h3, Except.ok.injEq, Prod.mk.injEq] at hs
  rw [← hs.2, alookup_toDict]

/-- Witness for the amended C1 theorem, at the Scenario A workbook. -/
theorem senderAddress_last_occurrence_witness :
    alookup (RefLists.mk ["Acme"] [(some "Acme", some "999 Rd")] [] [] [] []).sender_address
        (some "Acme") =
      lastAssoc ([some "Acme", some "Acme"].zip [some "123 Rd", some "999 Rd"])
        (some "Acme") ∧
    lastAssoc ([some "Acme", some "Acme"].zip [some "123 Rd", some "999 Rd"])
        (some "Acme") = some (some "999 Rd") := by
  constructor
  · exact senderAddress_last_occurrence wbScenarioA
      [ ("Наименование компании", [some "Acme", some "Acme"])
      , ("Адрес компании", [some "123 Rd", some "999 Rd"]) ]
      [some "Acme", some "Acme"] [some "123 Rd", some "999 Rd"]
      (RefLists.mk ["Acme"] [(some "Acme", some "999 Rd")] [] [] [] [])
      (some "Acme") rfl rfl rfl rfl
  · decide

/-! ### Claim C4 -/

/-- Reference lists for the two-submission session scenario. -/
def refListsC4 : RefLists :=
  ⟨["A", "B"], [(some "A", some "addr A"), (some "B", some "addr B")],
   ["R"], [(some "R", some "addr R")], [], ["FOB"]⟩

/-- First CMR submission of the scenario (sender "A"). -/
def cmrFormA : CMRForm := ⟨"A", "R", "R", "FOB", "c1", "i1", "n1"⟩

/-- Second CMR submission of the scenario (sender "B"). -/
def cmrFormB : CMRForm := ⟨"B", "R", "R", "FOB", "c2", "i2", "n2"⟩

/-- C4 failing run: after two successive CMR submissions the accumulated
list holds only the second record. `main` rebuilds the local
`cmr_rows = []` on every script rerun and never persists it (no
session_state), so the first appended record is lost, contradicting the
claimed two-record accumulator in submission order. -/
theorem cmr_accumulator_loses_first_submission :
    cmrSessionRows refListsC4 [cmrFormA, cmrFormB] =
      [buildCMRRow refListsC4 cmrFormB] ∧
    cmrSessionRows refListsC4 [cmrFormA, cmrFormB] ≠
      [buildCMRRow refListsC4 cmrFormA, buildCMRRow refListsC4 cmrFormB] := by
  constructor
  · rfl
  · decide

/-! ### Claim C7 -/

/-- C7: in this embedding extraction is a pure function of the loaded
workbook (the source mutates nothing: every pandas operation used by
`prepare_lists` returns a fresh object and `data` is only read), so
extracting twice from the same workbook yields identical ReferenceLists. -/
theorem prepare_lists_idempotent (data : Workbook) :
    prepare_lists data = prepare_lists data := rfl

/-! ### Claim C8 -/

/-- C8: exporting an empty record sequence does not fail and produces a
sheet holding only the header row, with an empty column set
(`pd.DataFrame([])` has no columns and no rows). -/
theorem export_empty_records_header_only :
    to_excel_bytes [("CMR", dfOfRecords [])] = [("CMR", [[]])] := rfl

/-! ### Claim C2 -/

/-- Two records with different (disjoint) key sets. -/
def nonUniformRecs : List Rcd := [[("a", some "1")], [("b", some "2")]]

/-- C2 counterexample: exporting a non-uniform record list does not fail
(no ExportError exists anywhere in the source); it produces a sheet whose
columns are the union of the keys and whose missing per-row values are
filled with NaN. -/
theorem export_nonuniform_produces_output :
    to_excel_bytes [("CMR", dfOfRecords nonUniformRecs)] =
      [("CMR", [[some "a", some "b"], [some "1", none], [none, some "2"]])] := rfl

/-- C2 amended: for every list of records (dicts, so per-record keys are
distinct) the exporter is total: the column set is the union of the
record keys in first-appearance order without duplicates, and each
record yields one row in which a missing key is filled with NaN. -/
theorem export_union_fill_policy (recs : List Rcd)
    (h : ∀ r ∈ recs, (r.map Prod.fst).Nodup) :
    (dfOfRecords recs).cols.Nodup ∧
    (∀ c, c ∈ (dfOfRecords recs).cols ↔ ∃ r ∈ recs, c ∈ r.map Prod.fst) ∧
    (dfOfRecords recs).rows =
      recs.map (fun r => (dfOfRecords recs).cols.map (fun c => (alookup r c).getD none)) := by
  refine ⟨unionKeys_nodup recs h, ?_, rfl⟩
  intro c
  exact mem_unionKeys recs c

/-- Witness for the amended C2 theorem, at the non-uniform record pair. -/
theorem export_union_fill_policy_witness :
    (dfOfRecords nonUniformRecs).cols.Nodup ∧
    (∀ c, c ∈ (dfOfRecords nonUniformRecs).cols ↔
      ∃ r ∈ nonUniformRecs, c ∈ r.map Prod.fst) ∧
    (dfOfRecords nonUniformRecs).rows =
      nonUniformRecs.map (fun r =>
        (dfOfRecords nonUniformRecs).cols.map (fun c => (alookup r c).getD none)) :=
  export_union_fill_policy nonUniformRecs (by decide)

/-! ### Claim C3 -/

/-- A workbook whose Sender sheet has the company-name column but no
company-address column. -/
def wbNoSenderAddress : Workbook :=
  [("Отправитель", [("Наименование компании", [some "Acme"])])]

/-- C3 counterexample: extraction raises KeyError instead of degrading
when the Sender sheet has the name column but lacks the address column:
the access `senders_df.set_index(...)[Адрес компании]` is unguarded. -/
theorem extraction_missing_sender_address_raises :
    prepare_lists wbNoSenderAddress = .error "KeyError: Адрес компании" := rfl

/-- The one safety condition `prepare_lists` needs: whenever the Sender
sheet is present with its name column, the address column is present too. -/
def senderAddrSafe (data : Workbook) : Prop :=
  ∀ df, wbGet data "Отправитель" = some df →
    dfGetCol df "Наименование компании" ≠ none →
    dfGetCol df "Адрес компании" ≠ none

/-- C3 amended: except for the one unguarded case (Sender sheet present
with its name column but without its address column, where extraction
raises KeyError), extraction succeeds and degrades gracefully: every
missing lookup sheet or missing guarded column yields the empty list or
empty mapping for that lookup. -/
theorem extraction_graceful_except_sender_address (data : Workbook)
    (hsafe : senderAddrSafe data) :
    ∃ L, prepare_lists data = .ok L ∧
      (wbGet data "Отправитель" = none → L.senders = [] ∧ L.sender_address = []) ∧
      (∀ df, wbGet data "Отправитель" = some df →
        dfGetCol df "Наименование компании" = none →
        L.senders = [] ∧ L.sender_address = []) ∧
      (wbGet data "Получатель и перевозчик" = none →
        L.receivers = [] ∧ L.receiver_address = [] ∧ L.receiver_ogrn = []) ∧
      (∀ df, wbGet data "Получатель и перевозчик" = some df →
        dfGetCol df "Наименование" = none →
        L.receivers = [] ∧ L.receiver_address = [] ∧ L.receiver_ogrn = []) ∧
      (∀ df, wbGet data "Получатель и перевозчик" = some df →
        dfGetCol df "Адрес" = none → L.receiver_address = []) ∧
      (∀ df, wbGet data "Получатель и перевозчик" = some df →
        dfGetCol df "ОГРН.1" = none → L.receiver_ogrn = []) ∧
      (wbGet data "доп данные" = none → L.incoterms = []) ∧
      (∀ df, wbGet data "доп данные" = some df →
        dfGetCol df "Условия поставки" = none → L.incoterms = []) := by
  have hok : ∃ sp, sendersPart data = .ok sp := by
    cases hw : wbGet data "Отправитель" with
    | none => exact ⟨([], []), by simp [sendersPart, hw]⟩
    | some df =>
      cases hn : dfGetCol df "Наименование компании" with
      | none => exact ⟨([], []), by simp [sendersPart, hw, hn]⟩
      | some nameCol =>
        cases ha : dfGetCol df "Адрес компании" with
        | none =>
          have hne := hsafe df hw (by simp [hn])
          exact absurd ha hne
        | some addrCol =>
          exact ⟨(uniqueFirst (nameCol.filterMap id), toDict (nameCol.zip addrCol)),
            by simp [sendersPart, hw, hn, ha]⟩
  obtain ⟨sp, hsp⟩ := hok
  have hpl : prepare_lists data = .ok ⟨sp.1, sp.2, (receiversPart data).1,
      (receiversPart data).2.1, (receiversPart data).2.2, incotermsPart data⟩ := by
    simp [prepare_lists, hsp]
  refine ⟨_, hpl, ?_, ?_, ?_, ?_, ?_, ?_, ?_, ?_⟩
  · intro hw
    have h2 : sendersPart data = .ok ([], []) := by simp [sendersPart, hw]
    rw [hsp] at h2
    simp only [Except.ok.injEq] at h2
    rw [h2]
    exact ⟨rfl, rfl⟩
  · intro df hw hn
    have h2 : sendersPart data = .ok ([], []) := by simp [sendersPart, hw, hn]
    rw [hsp] at h2
    simp only [Except.ok.injEq] at h2
    rw [h2]
    exact ⟨rfl, rfl⟩
  · intro hw
    have h2 : receiversPart data = ([], [], []) := by simp [receiversPart, hw]
    rw [h2]
    exact ⟨rfl, rfl, rfl⟩
  · intro df hw hn
    have h2 : receiversPart data = ([], [], []) := by simp [receiversPart, hw, hn]
    rw [h2]
    exact ⟨rfl, rfl, rfl⟩
  · intro df hw haddr
    cases hn : dfGetCol df "Наименование" with
    | none => simp [receiversPart, hw, hn]
    | some nameCol => simp [receiversPart, hw, hn, haddr]
  · intro df hw hogrn
    cases hn : dfGetCol df "Наименование" with
    | none => simp [receiversPart, hw, hn]
    | some nameCol => simp [receiversPart, hw, hn, hogrn]
  · intro hw
    simp [incotermsPart, hw]
  · intro df hw hn
    simp [incotermsPart, hw, hn]

/-- Witness for the amended C3 theorem, at the empty workbook. -/
theorem extraction_graceful_witness :
    ∃ L, prepare_lists ([] : Workbook) = .ok L ∧
      L.senders = [] ∧ L.incoterms = [] := by
  obtain ⟨L, hL, h1, -, -, -, -, -, h7, -⟩ :=
    extraction_graceful_except_sender_address [] (fun df hdf => nomatch hdf)
  exact ⟨L, hL, (h1 rfl).1, h7 rfl⟩

/-! ### Claim C5 -/

lemma map_getD_map_some (l : List String) :
    (l.map some).map (fun c => c.getD "") = l := by
  induction l with
  | nil => rfl
  | cons a t ih => simp [ih]

/-- C5: exporting N records with identical ordered key lists and loading
the produced sheet back through the loader column-table model
reproduces the records exactly. -/
theorem export_load_round_trip (recs : List Rcd) (cols : List String)
    (hnd : cols.Nodup) (hu : ∀ r ∈ recs, r.map Prod.fst = cols) :
    recordsOfDF (parseSheet (toTable (dfOfRecords recs))) = recs := by
  cases recs with
  | nil => rfl
  | cons r rest =>
    have hcols : unionKeys (r :: rest) = cols := unionKeys_uniform r rest cols hu
    simp only [dfOfRecords, toTable, parseSheet, recordsOfDF, hcols]
    rw [map_getD_map_some, List.map_map]
    have hrr : ∀ rr ∈ r :: rest,
        cols.zip (cols.map (fun c => (alookup rr c).getD none)) = rr :=
      fun rr hrr => record_roundtrip rr cols hnd (hu rr hrr)
    calc (r :: rest).map ((fun row => cols.zip row) ∘
          (fun rr => cols.map (fun c => (alookup rr c).getD none)))
        = (r :: rest).map id :=
          List.map_congr_left (fun rr h => by simpa [Function.comp] using hrr rr h)
      _ = r :: rest := List.map_id _

/-- Two uniform records used as the round-trip witness. -/
def uniformRecs : List Rcd :=
  [ [("x", some "1"), ("y", some "2")]
  , [("x", some "3"), ("y", some "4")] ]

/-- Witness for the C5 round-trip theorem. -/
theorem export_load_round_trip_witness :
    recordsOfDF (parseSheet (toTable (dfOfRecords uniformRecs))) = uniformRecs :=
  export_load_round_trip uniformRecs ["x", "y"] (by decide) (by decide)

/-! ### Claim C6 -/

/-- C6: every distinct-value list produced by extraction (senders,
receivers, incoterms) has no duplicates, consists exactly of the
non-missing values of its source column, and is ordered by first
appearance in the source column. -/
theorem distinct_lists_first_seen (data : Workbook) (L : RefLists)
    (h : prepare_lists data = .ok L) :
    (∀ df col, wbGet data "Отправитель" = some df →
      dfGetCol df "Наименование компании" = some col → distinctOk col L.senders) ∧
    (∀ df col, wbGet data "Получатель и перевозчик" = some df →
      dfGetCol df "Наименование" = some col → distinctOk col L.receivers) ∧
    (∀ df col, wbGet data "доп данные" = some df →
      dfGetCol df "Условия поставки" = some col → distinctOk col L.incoterms) := by
  obtain ⟨hs, hr, hi⟩ := prepare_lists_ok_parts data L h
  refine ⟨?_, ?_, ?_⟩
  · intro df col h1 h2
    cases h3 : dfGetCol df "Адрес компании" with
    | none => simp [sendersPart, h1, h2, h3] at hs
    | some addrCol =>
      simp only [sendersPart, h1, h2, h3, Except.ok.injEq, Prod.mk.injEq] at hs
      rw [← hs.1]
      exact distinctOk_uniqueFirst_filterMap col
  · intro df col h1 h2
    simp only [receiversPart, h1, h2, Prod.mk.injEq] at hr
    rw [← hr.1]
    exact distinctOk_uniqueFirst_filterMap col
  · intro df col h1 h2
    simp only [incotermsPart, h1, h2] at hi
    rw [← hi]
    exact distinctOk_uniqueFirst_filterMap col

/-- Workbook with duplicate and missing entries in all three lookup
sheets, used as the C6 witness. -/
def wbDistinct : Workbook :=
  [ ("Отправитель",
      [ ("Наименование компании", [some "Acme", none, some "Beta", some "Acme"])
      , ("Адрес компании", [some "a1", none, some "a2", some "a3"]) ])
  , ("Получатель и перевозчик",
      [ ("Наименование", [some "R1", some "R1"])
      , ("Адрес", [some "r1", some "r2"]) ])
  , ("доп данные", [("Условия поставки", [some "FOB", some "CIF", some "FOB"])]) ]

/-- Witness for the C6 theorem: the senders column of `wbDistinct`. -/
theorem distinct_lists_first_seen_witness :
    distinctOk [some "Acme", none, some "Beta", some "Acme"] ["Acme", "Beta"] := by
  have h := distinct_lists_first_seen wbDistinct
    (RefLists.mk ["Acme", "Beta"]
      [(some "Acme", some "a3"), (none, none), (some "Beta", some "a2")]
      ["R1"] [(some "R1", some "r2")] [] ["FOB", "CIF"]) rfl
  exact h.1 _ _ rfl rfl

/-! ### Claim C9 -/

/-- C9: the address resolution used by the Row Builder is total, returns
the empty string for a name that is not a key of the lookup mapping, and
its result is placed unchanged in the corresponding record field of each
of the three document types. -/
theorem resolve_total_default_empty (L : RefLists) (cf : CMRForm) (sf : SpecForm)
    (inf : InvoiceForm) (d : Dict) (n : String)
    (hn : (some n : Cell) ∉ d.map Prod.fst) :
    resolve d n = some "" ∧
    alookup (buildCMRRow L cf) "Адрес отправителя" =
      some (resolve L.sender_address cf.sender) ∧
    alookup (buildCMRRow L cf) "Адрес получателя" =
      some (resolve L.receiver_address cf.receiver) ∧
    alookup (buildCMRRow L cf) "Адрес перевозчика" =
      some (resolve L.receiver_address cf.carrier) ∧
    alookup (buildSpecRow L sf) "Адрес продавца" =
      some (resolve L.sender_address sf.seller) ∧
    alookup (buildSpecRow L sf) "Адрес получателя" =
      some (resolve L.receiver_address sf.consignee) ∧
    alookup (buildInvoiceRow L inf) "Адрес экспортера" =
      some (resolve L.sender_address inf.exporter) ∧
    alookup (buildInvoiceRow L inf) "Адрес покупателя" =
      some (resolve L.receiver_address inf.buyer) := by
  refine ⟨?_, rfl, rfl, rfl, rfl, rfl, rfl, rfl⟩
  rw [resolve, alookup_eq_none_of_not_mem_keys d _ hn]
  rfl

/-- Witness for the C9 theorem: an empty lookup dict resolves any name to
the empty string. -/
theorem resolve_total_default_empty_witness : resolve [] "Ghost" = some "" :=
  (resolve_total_default_empty ⟨[], [], [], [], [], []⟩
    ⟨"s", "r", "c", "i", "k", "v", "m"⟩ ⟨"s", "c", "k", "p", "g", "USD"⟩
    ⟨"e", "b", "i", "d", "k", "t", "g"⟩ [] "Ghost" (by decide)).1

/-! ### Claim C10 -/

/-- A workbook on which extraction raises instead of returning a result. -/
def wbNoAddrColumn : Workbook :=
  [("Отправитель", [("Наименование компании", [some "Solo"])])]

/-- C10 counterexample: extraction does not return a six-key result for
EVERY workbook: on this one it raises KeyError and returns nothing. -/
theorem extraction_raises_without_result :
    prepare_lists wbNoAddrColumn = .error "KeyError: Адрес компании" := rfl

/-- C10 amended: whenever extraction returns a result (in particular on
the empty workbook), the result has exactly the six keys senders,
sender_address, receivers, receiver_address, receiver_ogrn, incoterms in
assignment order, with list values for the three name lists and dict
values for the three mappings. -/
theorem ref_lists_six_keys (data : Workbook) (L : RefLists)
    (_h : prepare_lists data = .ok L) :
    (listsDict L).map Prod.fst =
      ["senders", "sender_address", "receivers", "receiver_address",
       "receiver_ogrn", "incoterms"] ∧
    (∃ l, alookup (listsDict L) "senders" = some (LVal.strs l)) ∧
    (∃ d, alookup (listsDict L) "sender_address" = some (LVal.dct d)) ∧
    (∃ l, alookup (listsDict L) "receivers" = some (LVal.strs l)) ∧
    (∃ d, alookup (listsDict L) "receiver_address" = some (LVal.dct d)) ∧
    (∃ d, alookup (listsDict L) "receiver_ogrn" = some (LVal.dct d)) ∧
    (∃ l, alookup (listsDict L) "incoterms" = some (LVal.strs l)) :=
  ⟨rfl, ⟨_, rfl⟩, ⟨_, rfl⟩, ⟨_, rfl⟩, ⟨_, rfl⟩, ⟨_, rfl⟩, ⟨_, rfl⟩⟩

/-- Witness for the amended C10 theorem, at the empty workbook. -/
theorem ref_lists_six_keys_witness :
    (listsDict ⟨[], [], [], [], [], []⟩).map Prod.fst =
      ["senders", "sender_address", "receivers", "receiver_address",
       "receiver_ogrn", "incoterms"] :=
  (ref_lists_six_keys [] ⟨[], [], [], [], [], []⟩ rfl).1
